import Mathlib

set_option autoImplicit false

namespace Tissuebox

/-- Key codes: the subset of the crossterm KeyCode values that tui.rs inspects.
All remaining key codes behave identically to the wildcard arm and are
represented by the constructor Key.other. -/
inductive Key where
  | backspace
  | enter
  | esc
  | up
  | down
  | left
  | right
  | char (c : Char)
  | other
deriving DecidableEq, Repr

/-- An Item (struct Tissue): title, ordered description entries, tag set.
The Rust tag set is a HashSet of strings; it is modelled as a duplicate-free
list with insert-if-absent, since no claim depends on iteration order. -/
structure Tissue where
  title : String
  description : List String
  tags : List String
deriving DecidableEq, Repr, Inhabited

/-- Tissue::describe pushes one entry at the tail of the description list. -/
def Tissue.describe (t : Tissue) (d : String) : Tissue :=
  { t with description := t.description ++ [d] }

/-- Tissue::tag inserts into the tag set (HashSet::insert). -/
def Tissue.tag (t : Tissue) (tg : String) : Tissue :=
  if t.tags.contains tg then t else { t with tags := t.tags ++ [tg] }

/-- HashSet::remove on the tag set. -/
def Tissue.removeTag (t : Tissue) (tg : String) : Tissue :=
  { t with tags := t.tags.erase tg }

/-- The Record Store (struct TissueBox of the current crate): live items,
recycle bin, optional starred index. The struct definition itself is not part
of the sources (only callers in tui.rs, cli.rs and tests are), so the fields
follow the spec: an ordered sequence of Items, a recycle bin ordered
most-recent-last, and an optional starred index. -/
structure TissueBox where
  tissues : List Tissue
  recycleBin : List Tissue
  starred : Option Nat
deriving DecidableEq, Repr, Inhabited

/-- TissueBox::create pushes a new tissue with the given title. -/
def TissueBox.create (b : TissueBox) (title : String) : TissueBox :=
  { b with tissues := b.tissues ++ [{ title := title, description := [], tags := [] }] }

/-- Modelled from the spec: TissueBox::remove is not under src (lib.rs holds an
older pre-recycle-bin revision of the store type). Per the spec, removing an
Item moves it, full value included, to the tail of the recycle bin; removing
the starred item clears the star, and the starred index otherwise keeps
referencing the same live item (it is always a valid index into the live
sequence). An out-of-range index leaves the store unchanged (the Rust method
returns an Option and callers discard it). -/
def TissueBox.remove (b : TissueBox) (i : Nat) : TissueBox :=
  match b.tissues[i]? with
  | none => b
  | some t =>
    { tissues := b.tissues.eraseIdx i
      recycleBin := b.recycleBin ++ [t]
      starred :=
        match b.starred with
        | none => none
        | some st => if st = i then none else if i < st then some (st - 1) else some st }

/-- Modelled from the spec: TissueBox::restore is not under src. Restoring
from the recycle bin moves the item back onto the tail of the live sequence
and removes it from the recycle bin. -/
def TissueBox.restore (b : TissueBox) (i : Nat) : TissueBox :=
  match b.recycleBin[i]? with
  | none => b
  | some t => { b with tissues := b.tissues ++ [t], recycleBin := b.recycleBin.eraseIdx i }

/-- Display for Tissue (lib.rs): title, parenthesised comma-joined tags when
non-empty, then one indented line per description entry. -/
def Tissue.format (t : Tissue) : String :=
  t.title
    ++ (if t.tags.isEmpty then "" else " (" ++ String.intercalate (", ") t.tags ++ ")")
    ++ "\n"
    ++ String.join (t.description.map (fun d => "  - " ++ d ++ "\n"))

/-- Display for the store (lib.rs): enumerated tissues. -/
def TissueBox.format (b : TissueBox) : String :=
  String.join (b.tissues.enum.map (fun p => toString p.1 ++ ". " ++ p.2.format))

/-- The Mode enum of tui.rs. -/
inductive Mode where
  | normal
  | help
  | add (buf : String)
  | describe (buf : String)
  | tag (buf : String)
  | edit (buf : String)
  | copy
  | publish
  | commit
  | remove
  | removeDescription (i : Nat)
  | removeTag (buf : String)
  | restore (i : Nat)
deriving DecidableEq, Repr

/-- The InputResult enum of tui.rs. The Error payload is the Result value
stored into last_error, modelled as an optional error message. -/
inductive InputResult where
  | mode (m : Mode)
  | copy (text : String)
  | error (e : Option String)
  | changed
deriving DecidableEq, Repr

/-- Outcomes of the external helpers and of save, which the code obtains from
the outside world: none models Ok, some msg a failure with that message. -/
structure ExtEnv where
  publishResult : Option String
  commitResult : Option String
  saveResult : Option String
  clipboardDaemon : Bool
  spawnResult : Option String
deriving DecidableEq, Repr, Inhabited

/-- gather_line of tui.rs: Backspace pops the last character, Enter signals
commit, a character key appends, anything else leaves the buffer unchanged. -/
def gatherLine (line : String) (k : Key) : Bool × String :=
  match k with
  | .backspace => (false, line.dropRight 1)
  | .enter => (true, line)
  | .char c => (false, line.push c)
  | _ => (false, line)

/-- The keys treated as upward navigation by tui.rs. -/
abbrev isUpKey (k : Key) : Prop :=
  k = .char 'k' ∨ k = .char 'h' ∨ k = .up ∨ k = .left

/-- The keys treated as downward navigation by tui.rs. -/
abbrev isDownKey (k : Key) : Prop :=
  k = .char 'j' ∨ k = .char 'l' ∨ k = .down ∨ k = .right

/-- The Mode::Normal arm of the input match in tui.rs. -/
def inputNormal (k : Key) (idx : Nat) (box : TissueBox) :
    InputResult × Nat × TissueBox :=
  if isUpKey k then (.mode .normal, idx - 1, box)
  else if isDownKey k then (.mode .normal, idx + 1, box)
  else
    match k with
    | .char c =>
      if c = 'H' then (.mode .help, idx, box)
      else if c = 'a' then (.mode (.add ("")), idx, box)
      else if c = 'R' then
        if box.recycleBin.isEmpty then (.mode .normal, idx, box)
        else (.mode (.restore 0), idx, box)
      else if c = 'd' ∧ box.tissues.isEmpty = false then (.mode (.describe ("")), idx, box)
      else if c = 't' ∧ box.tissues.isEmpty = false then (.mode (.tag ("")), idx, box)
      else if c = 'e' ∧ box.tissues.isEmpty = false then (.mode (.edit ("")), idx, box)
      else if c = 'c' ∧ box.tissues.isEmpty = false then (.mode .copy, idx, box)
      else if c = 'C' ∧ box.tissues.isEmpty = false then (.mode .commit, idx, box)
      else if c = 'P' ∧ box.tissues.isEmpty = false then (.mode .publish, idx, box)
      else if c = 'r' ∧ box.tissues.isEmpty = false then (.mode .remove, idx, box)
      else if c = '*' ∧ box.tissues.isEmpty = false then
        match box.starred with
        | some st =>
          if st = idx then (.changed, idx, { box with starred := none })
          else (.changed, st, box)
        | none => (.changed, idx, { box with starred := some idx })
      else (.mode .normal, idx, box)
    | _ => (.mode .normal, idx, box)

/-- The Mode::Help arm: any character key dismisses, others keep Help. -/
def inputHelp (k : Key) (idx : Nat) (box : TissueBox) :
    InputResult × Nat × TissueBox :=
  match k with
  | .char _ => (.mode .normal, idx, box)
  | _ => (.mode .help, idx, box)

/-- The Mode::Add arm: gather the line, on commit create a tissue. -/
def inputAdd (buf : String) (k : Key) (idx : Nat) (box : TissueBox) :
    InputResult × Nat × TissueBox :=
  match gatherLine buf k with
  | (true, line) => (.changed, idx, box.create line)
  | (false, line) => (.mode (.add line), idx, box)

/-- The Mode::Describe arm: on commit, index the live sequence (none models
the out-of-bounds panic) and append the buffer to the description. -/
def inputDescribe (buf : String) (k : Key) (idx : Nat) (box : TissueBox) :
    Option (InputResult × Nat × TissueBox) :=
  match gatherLine buf k with
  | (true, line) =>
    match box.tissues[idx]? with
    | some t => some (.changed, idx, { box with tissues := box.tissues.set idx (t.describe line) })
    | none => none
  | (false, line) => some (.mode (.describe line), idx, box)

/-- The Mode::Tag arm. -/
def inputTag (buf : String) (k : Key) (idx : Nat) (box : TissueBox) :
    Option (InputResult × Nat × TissueBox) :=
  match gatherLine buf k with
  | (true, line) =>
    match box.tissues[idx]? with
    | some t => some (.changed, idx, { box with tissues := box.tissues.set idx (t.tag line) })
    | none => none
  | (false, line) => some (.mode (.tag line), idx, box)

/-- The Mode::Edit arm: commit replaces the selected title. -/
def inputEdit (buf : String) (k : Key) (idx : Nat) (box : TissueBox) :
    Option (InputResult × Nat × TissueBox) :=
  match gatherLine buf k with
  | (true, line) =>
    match box.tissues[idx]? with
    | some t => some (.changed, idx, { box with tissues := box.tissues.set idx { t with title := line } })
    | none => none
  | (false, line) => some (.mode (.edit line), idx, box)

/-- The Mode::Copy arm: the t, d and l keys yield Copy requests. -/
def inputCopy (k : Key) (idx : Nat) (box : TissueBox) :
    Option (InputResult × Nat × TissueBox) :=
  match k with
  | .char c =>
    if c = 't' then (box.tissues[idx]?).map (fun t => (.copy t.title, idx, box))
    else if c = 'd' then
      (box.tissues[idx]?).map (fun t => (.copy (String.intercalate ("\n") t.description), idx, box))
    else if c = 'l' then some (.copy box.format, idx, box)
    else some (.mode .copy, idx, box)
  | _ => some (.mode .copy, idx, box)

/-- The Mode::Publish arm: the affirmative key runs the publish helper whose
outcome the environment supplies; success removes the tissue, failure becomes
an Error result without touching the store. -/
def inputPublish (k : Key) (idx : Nat) (box : TissueBox) (env : ExtEnv) :
    Option (InputResult × Nat × TissueBox) :=
  match k with
  | .char c =>
    if c = 'y' ∨ c = 'Y' then
      match box.tissues[idx]? with
      | none => none
      | some _ =>
        match env.publishResult with
        | none => some (.changed, idx, box.remove idx)
        | some msg => some (.error (some msg), idx, box)
    else if c = 'n' ∨ c = 'N' then some (.mode .normal, idx, box)
    else some (.mode .publish, idx, box)
  | _ => some (.mode .publish, idx, box)

/-- The Mode::Commit arm, symmetric to publish with the commit helper. -/
def inputCommit (k : Key) (idx : Nat) (box : TissueBox) (env : ExtEnv) :
    Option (InputResult × Nat × TissueBox) :=
  match k with
  | .char c =>
    if c = 'y' ∨ c = 'Y' then
      match box.tissues[idx]? with
      | none => none
      | some _ =>
        match env.commitResult with
        | none => some (.changed, idx, box.remove idx)
        | some msg => some (.error (some msg), idx, box)
    else if c = 'n' ∨ c = 'N' then some (.mode .normal, idx, box)
    else some (.mode .commit, idx, box)
  | _ => some (.mode .commit, idx, box)

/-- The Mode::Remove sub-menu arm. -/
def inputRemove (k : Key) (idx : Nat) (box : TissueBox) :
    Option (InputResult × Nat × TissueBox) :=
  match k with
  | .char c =>
    if c = 'T' then some (.changed, idx, box.remove idx)
    else if c = 'd' then
      match box.tissues[idx]? with
      | none => none
      | some t =>
        if t.description.isEmpty then some (.mode .normal, idx, box)
        else some (.mode (.removeDescription 0), idx, box)
    else if c = 't' then some (.mode (.removeTag ("")), idx, box)
    else some (.mode .remove, idx, box)
  | _ => some (.mode .remove, idx, box)

/-- The Mode::RemoveDescription arm: the selected tissue is indexed first
(none models the panic), directional keys walk with clamping (none models
the underflowing length minus one on an empty description list), Enter
removes the walked entry (none models the Vec::remove panic). -/
def inputRemoveDescription (i : Nat) (k : Key) (idx : Nat) (box : TissueBox) :
    Option (InputResult × Nat × TissueBox) :=
  match box.tissues[idx]? with
  | none => none
  | some t =>
    if isUpKey k then some (.mode (.removeDescription (i - 1)), idx, box)
    else if isDownKey k then
      if t.description.length = 0 then none
      else some (.mode (.removeDescription (min (i + 1) (t.description.length - 1))), idx, box)
    else
      match k with
      | .enter =>
        if i < t.description.length then
          some (.changed, idx,
            { box with tissues := box.tissues.set idx { t with description := t.description.eraseIdx i } })
        else none
      | _ => some (.mode (.removeDescription i), idx, box)

/-- The Mode::RemoveTag arm. -/
def inputRemoveTag (buf : String) (k : Key) (idx : Nat) (box : TissueBox) :
    Option (InputResult × Nat × TissueBox) :=
  match gatherLine buf k with
  | (true, line) =>
    match box.tissues[idx]? with
    | some t => some (.changed, idx, { box with tissues := box.tissues.set idx (t.removeTag line) })
    | none => none
  | (false, line) => some (.mode (.removeTag line), idx, box)

/-- The Mode::Restore arm: walk the recycle bin, Enter restores. -/
def inputRestore (i : Nat) (k : Key) (idx : Nat) (box : TissueBox) :
    Option (InputResult × Nat × TissueBox) :=
  if isUpKey k then some (.mode (.restore (i - 1)), idx, box)
  else if isDownKey k then
    if box.recycleBin.length = 0 then none
    else some (.mode (.restore (min (i + 1) (box.recycleBin.length - 1))), idx, box)
  else
    match k with
    | .enter => some (.changed, idx, box.restore i)
    | _ => some (.mode (.restore i), idx, box)

/-- The input function of tui.rs, dispatching on the current Mode. The
returned triple carries the InputResult with the possibly updated
highlighted index and store (both passed by mutable reference in Rust).
The value none models a panic: an out-of-bounds index expression or an
underflowing length-minus-one. -/
def input (m : Mode) (k : Key) (idx : Nat) (box : TissueBox) (env : ExtEnv) :
    Option (InputResult × Nat × TissueBox) :=
  match m with
  | .normal => some (inputNormal k idx box)
  | .help => some (inputHelp k idx box)
  | .add buf => some (inputAdd buf k idx box)
  | .describe buf => inputDescribe buf k idx box
  | .tag buf => inputTag buf k idx box
  | .edit buf => inputEdit buf k idx box
  | .copy => inputCopy k idx box
  | .publish => inputPublish k idx box env
  | .commit => inputCommit k idx box env
  | .remove => inputRemove k idx box
  | .removeDescription i => inputRemoveDescription i k idx box
  | .removeTag buf => inputRemoveTag buf k idx box
  | .restore i => inputRestore i k idx box

/-- Session state threaded through the tui loop: the highlighted index, the
current mode, the store, and the last displayed error line. -/
structure SessState where
  index : Nat
  mode : Mode
  box : TissueBox
  lastError : Option String
deriving DecidableEq, Repr

/-- The per-iteration clamp at the top of the tui loop:
index = index.min(len.saturating_sub(1)). -/
def clampState (s : SessState) : SessState :=
  { s with index := min s.index (s.box.tissues.length - 1) }

/-- Result of one iteration of the session loop: exit on q from Normal, or
continue with the next state. The saved flag records whether this iteration
called the save routine of the store. -/
inductive StepResult where
  | exit
  | cont (s : SessState) (saved : Bool)
deriving DecidableEq, Repr

/-- The Esc override at the head of key handling: Esc forces Mode Normal
before the rest of the dispatch runs. -/
def escMode (s : SessState) (k : Key) : Mode :=
  if k = Key.esc then Mode.normal else s.mode

/-- One iteration of the tui session loop on a key press (tui.rs lines
156-193): Esc forces Mode Normal first, q from Normal exits, otherwise the
input function runs and its InputResult is applied: a Mode result just
transitions; a Copy result dispatches the clipboard hand-off (error
"clipboard is not available" when no daemon path was given, the spawn result
otherwise) and returns to Normal; an Error result becomes the last displayed
error; Changed saves the store and the save result becomes the last error.
The clamp of the following loop head is applied so the resulting state is the
one rendered and used at the next key press. none models a panic in input. -/
def tuiStep (s : SessState) (k : Key) (env : ExtEnv) : Option StepResult :=
  if escMode s k = Mode.normal ∧ k = Key.char 'q' then some .exit
  else
    (input (escMode s k) k s.index s.box env).map (fun r =>
      match r with
      | (.mode m2, i2, b2) =>
        .cont (clampState { index := i2, mode := m2, box := b2, lastError := s.lastError }) false
      | (.copy _, i2, b2) =>
        .cont (clampState
          { index := i2, mode := .normal, box := b2,
            lastError :=
              if env.clipboardDaemon then env.spawnResult
              else some ("clipboard is not available") }) false
      | (.error e, i2, b2) =>
        .cont (clampState { index := i2, mode := .normal, box := b2, lastError := e }) false
      | (.changed, i2, b2) =>
        .cont (clampState { index := i2, mode := .normal, box := b2, lastError := env.saveResult }) true)

/-- The session state at the first key press: index 0, Mode Normal, no error,
with the loop-head clamp applied. -/
def initState (b : TissueBox) : SessState :=
  clampState { index := 0, mode := .normal, box := b, lastError := none }

/-- Fold one key press into the session state; an exited session or a panic
keeps the state (panics are proved unreachable below). -/
def stepFold (s : SessState) (ke : Key × ExtEnv) : SessState :=
  match tuiStep s ke.1 ke.2 with
  | some (.cont s2 _) => s2
  | _ => s

/-- Run a sequence of key presses, each with its environment of external
outcomes, from a session state. -/
def runKeys (s : SessState) (inputs : List (Key × ExtEnv)) : SessState :=
  inputs.foldl stepFold s

/-- The highlighted index addresses the live sequence: on an empty sequence it
is 0 (with no valid target), otherwise it is a valid position. -/
def indexOk (s : SessState) : Prop :=
  (s.box.tissues = [] ∧ s.index = 0) ∨ s.index < s.box.tissues.length

/-- Precondition of each mode, re-derived from the guards of tui.rs: the
modes that index the live sequence need a valid highlighted index, the
description-removal walker additionally keeps its walked index inside the
selected description list, and the restore walker keeps its walked index
inside the recycle bin. -/
def modePre (m : Mode) (idx : Nat) (box : TissueBox) : Prop :=
  match m with
  | .describe _ => idx < box.tissues.length
  | .tag _ => idx < box.tissues.length
  | .edit _ => idx < box.tissues.length
  | .copy => idx < box.tissues.length
  | .publish => idx < box.tissues.length
  | .commit => idx < box.tissues.length
  | .remove => idx < box.tissues.length
  | .removeTag _ => idx < box.tissues.length
  | .removeDescription i => ∃ t, box.tissues[idx]? = some t ∧ i < t.description.length
  | .restore i => i < box.recycleBin.length
  | _ => True

/-- The session invariant: the highlighted index is in bounds of the live
sequence (inert 0 when it is empty) and the current mode satisfies its
precondition, in particular every selector index is in bounds of the
sequence it walks. -/
def Inv (s : SessState) : Prop :=
  indexOk s ∧ modePre s.mode s.index s.box


/-- After one input step, a Mode result satisfies its precondition at the
index clamped by the following loop head, over the store it runs on. -/
abbrev modeOkAfter (box : TissueBox) (out : InputResult × Nat × TissueBox) : Prop :=
  ∀ m2, out.1 = .mode m2 → modePre m2 (min out.2.1 (box.tissues.length - 1)) box

/-- The key handler of the first-run git prompt (tui.rs lines 75-83): y and Y
leave the prompt loop with the value true, and n and N also leave it with the
value true (both match arms contain an identical break with true); every
other key keeps the prompt looping, modelled as none. -/
def gitPromptResponse (k : Key) : Option Bool :=
  match k with
  | .char c =>
    if c = 'y' ∨ c = 'Y' then some true
    else if c = 'n' ∨ c = 'N' then some true
    else none
  | _ => none

/-- The first-run bootstrap decision (tui.rs lines 56-101): when the store
file is absent and a .git directory is present, the prompt loop runs until a
key yields a response, and the resulting flag decides whether the store path
is appended to .git/info/exclude; none models a prompt still waiting. With
the store file present, or without .git, nothing is appended. -/
def bootstrapAppendsExclude (storeExists gitPresent : Bool) (keys : List Key) : Option Bool :=
  if storeExists then some false
  else if gitPresent then keys.findSome? gitPromptResponse
  else some false

/-- Concrete fixtures used by witnesses and counterexamples. -/
def tissueFoo : Tissue := { title := "Foo", description := [], tags := ["bug"] }

def tissueBar : Tissue :=
  { title := "Bar", description := [], tags := ["good first issue", "help wanted"] }

def envOk : ExtEnv :=
  { publishResult := none, commitResult := none, saveResult := none,
    clipboardDaemon := false, spawnResult := none }

def c1Box : TissueBox := { tissues := [tissueFoo, tissueBar], recycleBin := [], starred := none }

def c3Box : TissueBox := { tissues := [tissueFoo], recycleBin := [], starred := none }

def c3Env : ExtEnv := { envOk with saveResult := some ("disk full") }

def c3S : SessState := { index := 0, mode := .add ("Baz"), box := c3Box, lastError := none }

def c3S2 : SessState :=
  { index := 0, mode := .normal, box := c3Box.create ("Baz"), lastError := some ("disk full") }

def c4S : SessState := { index := 0, mode := .help, box := c1Box, lastError := none }

def c5Box : TissueBox := { tissues := [tissueFoo, tissueBar], recycleBin := [], starred := some 0 }

def c5S : SessState := { index := 1, mode := .normal, box := c5Box, lastError := none }

def c5S2 : SessState := { index := 0, mode := .normal, box := c5Box, lastError := none }

def c6Box : TissueBox := { tissues := [tissueFoo], recycleBin := [], starred := none }

def c6Env : ExtEnv := { envOk with publishResult := some ("boom") }

def c6S : SessState := { index := 0, mode := .publish, box := c6Box, lastError := none }

def c6S2 : SessState := { index := 0, mode := .normal, box := c6Box, lastError := some ("boom") }

def c6WBox : TissueBox := { tissues := [tissueFoo], recycleBin := [], starred := none }

def c6WEnv : ExtEnv := { envOk with publishResult := some ("offline") }

def c7Box : TissueBox := { tissues := [tissueFoo], recycleBin := [], starred := none }

def c7S : SessState := { index := 0, mode := .copy, box := c7Box, lastError := none }

def c7S2 : SessState :=
  { index := 0, mode := .normal, box := c7Box, lastError := some ("clipboard is not available") }

def c7WS : SessState := { index := 0, mode := .copy, box := c7Box, lastError := some ("old") }

def c8Tissue : Tissue := { title := "Foo", description := [], tags := [] }

def c8Box : TissueBox := { tissues := [c8Tissue], recycleBin := [], starred := none }

def c8Keys : List (Key × ExtEnv) :=
  (Key.char 'd', envOk) :: (("Depends on X").toList.map (fun c => (Key.char c, envOk)))

def c8Typed : SessState := runKeys (initState c8Box) c8Keys

def c8Final : SessState :=
  { index := 0, mode := .normal,
    box := { tissues := [{ title := "Foo", description := ["Depends on X"], tags := [] }],
             recycleBin := [], starred := none },
    lastError := none }

def c8WBox : TissueBox :=
  { tissues := [{ title := "Bar", description := ["a"], tags := [] }],
    recycleBin := [], starred := none }

def c8WTissue : Tissue := { title := "Bar", description := ["a"], tags := [] }

/-- A result other than Changed leaves the store untouched (Mode::Normal arm). -/
theorem inputNormal_box {k : Key} {idx : Nat} {box : TissueBox}
    {r : InputResult} {i2 : Nat} {b2 : TissueBox}
    (h : inputNormal k idx box = (r, i2, b2)) (hr : r ≠ .changed) : b2 = box := by
  cases k with
  | char c =>
    simp only [inputNormal, isUpKey, isDownKey, Key.char.injEq, or_false, false_or,
      reduceCtorEq] at h
    by_cases h1 : c = 'k' ∨ c = 'h'
    · rw [if_pos h1] at h
      simp only [Prod.mk.injEq] at h
      exact h.2.2.symm
    rw [if_neg h1] at h
    by_cases h2 : c = 'j' ∨ c = 'l'
    · rw [if_pos h2] at h
      simp only [Prod.mk.injEq] at h
      exact h.2.2.symm
    rw [if_neg h2] at h
    by_cases h3 : c = 'H'
    · rw [if_pos h3] at h
      simp only [Prod.mk.injEq] at h
      exact h.2.2.symm
    rw [if_neg h3] at h
    by_cases h4 : c = 'a'
    · rw [if_pos h4] at h
      simp only [Prod.mk.injEq] at h
      exact h.2.2.symm
    rw [if_neg h4] at h
    by_cases h5 : c = 'R'
    · rw [if_pos h5] at h
      by_cases h5b : box.recycleBin.isEmpty = true
      · rw [if_pos h5b] at h
        simp only [Prod.mk.injEq] at h
        exact h.2.2.symm
      · rw [if_neg h5b] at h
        simp only [Prod.mk.injEq] at h
        exact h.2.2.symm
    rw [if_neg h5] at h
    by_cases h6 : c = 'd' ∧ box.tissues.isEmpty = false
    · rw [if_pos h6] at h
      simp only [Prod.mk.injEq] at h
      exact h.2.2.symm
    rw [if_neg h6] at h
    by_cases h7 : c = 't' ∧ box.tissues.isEmpty = false
    · rw [if_pos h7] at h
      simp only [Prod.mk.injEq] at h
      exact h.2.2.symm
    rw [if_neg h7] at h
    by_cases h8 : c = 'e' ∧ box.tissues.isEmpty = false
    · rw [if_pos h8] at h
      simp only [Prod.mk.injEq] at h
      exact h.2.2.symm
    rw [if_neg h8] at h
    by_cases h9 : c = 'c' ∧ box.tissues.isEmpty = false
    · rw [if_pos h9] at h
      simp only [Prod.mk.injEq] at h
      exact h.2.2.symm
    rw [if_neg h9] at h
    by_cases h10 : c = 'C' ∧ box.tissues.isEmpty = false
    · rw [if_pos h10] at h
      simp only [Prod.mk.injEq] at h
      exact h.2.2.symm
    rw [if_neg h10] at h
    by_cases h11 : c = 'P' ∧ box.tissues.isEmpty = false
    · rw [if_pos h11] at h
      simp only [Prod.mk.injEq] at h
      exact h.2.2.symm
    rw [if_neg h11] at h
    by_cases h12 : c = 'r' ∧ box.tissues.isEmpty = false
    · rw [if_pos h12] at h
      simp only [Prod.mk.injEq] at h
      exact h.2.2.symm
    rw [if_neg h12] at h
    by_cases h13 : c = '*' ∧ box.tissues.isEmpty = false
    · rw [if_pos h13] at h
      rcases hst : box.starred with _ | st
      · rw [hst] at h
        simp only [Prod.mk.injEq] at h
        exact absurd h.1.symm hr
      · rw [hst] at h
        repeat' split at h
        all_goals (simp only [Prod.mk.injEq] at h; exact absurd h.1.symm hr)
    rw [if_neg h13] at h
    simp only [Prod.mk.injEq] at h
    exact h.2.2.symm
  | _ =>
    simp only [inputNormal, isUpKey, isDownKey] at h
    repeat' split at h
    all_goals simp_all

/-- A result other than Changed leaves the store untouched (Mode::Help arm). -/
theorem inputHelp_box {k : Key} {idx : Nat} {box : TissueBox}
    {r : InputResult} {i2 : Nat} {b2 : TissueBox}
    (h : inputHelp k idx box = (r, i2, b2)) (hr : r ≠ .changed) : b2 = box := by
  cases k <;> simp_all [inputHelp]

/-- A result other than Changed leaves the store untouched (Mode::Add arm). -/
theorem inputAdd_box {buf : String} {k : Key} {idx : Nat} {box : TissueBox}
    {r : InputResult} {i2 : Nat} {b2 : TissueBox}
    (h : inputAdd buf k idx box = (r, i2, b2)) (hr : r ≠ .changed) : b2 = box := by
  cases k <;> simp_all [inputAdd, gatherLine]

/-- A result other than Changed leaves the store untouched (Mode::Describe arm). -/
theorem inputDescribe_box {buf : String} {k : Key} {idx : Nat} {box : TissueBox}
    {r : InputResult} {i2 : Nat} {b2 : TissueBox}
    (h : inputDescribe buf k idx box = some (r, i2, b2)) (hr : r ≠ .changed) : b2 = box := by
  cases k <;> simp_all [inputDescribe, gatherLine] <;>
    (repeat' split at h) <;> simp_all

/-- A result other than Changed leaves the store untouched (Mode::Tag arm). -/
theorem inputTag_box {buf : String} {k : Key} {idx : Nat} {box : TissueBox}
    {r : InputResult} {i2 : Nat} {b2 : TissueBox}
    (h : inputTag buf k idx box = some (r, i2, b2)) (hr : r ≠ .changed) : b2 = box := by
  cases k <;> simp_all [inputTag, gatherLine] <;>
    (repeat' split at h) <;> simp_all

/-- A result other than Changed leaves the store untouched (Mode::Edit arm). -/
theorem inputEdit_box {buf : String} {k : Key} {idx : Nat} {box : TissueBox}
    {r : InputResult} {i2 : Nat} {b2 : TissueBox}
    (h : inputEdit buf k idx box = some (r, i2, b2)) (hr : r ≠ .changed) : b2 = box := by
  cases k <;> simp_all [inputEdit, gatherLine] <;>
    (repeat' split at h) <;> simp_all

/-- A result other than Changed leaves the store untouched (Mode::Copy arm). -/
theorem inputCopy_box {k : Key} {idx : Nat} {box : TissueBox}
    {r : InputResult} {i2 : Nat} {b2 : TissueBox}
    (h : inputCopy k idx box = some (r, i2, b2)) (hr : r ≠ .changed) : b2 = box := by
  cases k <;> simp_all [inputCopy] <;>
    (repeat' split at h) <;> (try simp_all) <;>
    (obtain ⟨t, ht, hc, hi, hb⟩ := h; exact hb.symm)

/-- A result other than Changed leaves the store untouched (Mode::Publish arm). -/
theorem inputPublish_box {k : Key} {idx : Nat} {box : TissueBox} {env : ExtEnv}
    {r : InputResult} {i2 : Nat} {b2 : TissueBox}
    (h : inputPublish k idx box env = some (r, i2, b2)) (hr : r ≠ .changed) : b2 = box := by
  cases k <;> simp_all [inputPublish] <;>
    (repeat' split at h) <;> simp_all

/-- A result other than Changed leaves the store untouched (Mode::Commit arm). -/
theorem inputCommit_box {k : Key} {idx : Nat} {box : TissueBox} {env : ExtEnv}
    {r : InputResult} {i2 : Nat} {b2 : TissueBox}
    (h : inputCommit k idx box env = some (r, i2, b2)) (hr : r ≠ .changed) : b2 = box := by
  cases k <;> simp_all [inputCommit] <;>
    (repeat' split at h) <;> simp_all

/-- A result other than Changed leaves the store untouched (Mode::Remove arm). -/
theorem inputRemove_box {k : Key} {idx : Nat} {box : TissueBox}
    {r : InputResult} {i2 : Nat} {b2 : TissueBox}
    (h : inputRemove k idx box = some (r, i2, b2)) (hr : r ≠ .changed) : b2 = box := by
  cases k <;> simp_all [inputRemove] <;>
    (repeat' split at h) <;> simp_all

/-- A result other than Changed leaves the store untouched (RemoveDescription arm). -/
theorem inputRemoveDescription_box {i : Nat} {k : Key} {idx : Nat} {box : TissueBox}
    {r : InputResult} {i2 : Nat} {b2 : TissueBox}
    (h : inputRemoveDescription i k idx box = some (r, i2, b2)) (hr : r ≠ .changed) : b2 = box := by
  cases k <;> simp_all [inputRemoveDescription, isUpKey, isDownKey] <;>
    (repeat' split at h) <;> simp_all

/-- A result other than Changed leaves the store untouched (Mode::RemoveTag arm). -/
theorem inputRemoveTag_box {buf : String} {k : Key} {idx : Nat} {box : TissueBox}
    {r : InputResult} {i2 : Nat} {b2 : TissueBox}
    (h : inputRemoveTag buf k idx box = some (r, i2, b2)) (hr : r ≠ .changed) : b2 = box := by
  cases k <;> simp_all [inputRemoveTag, gatherLine] <;>
    (repeat' split at h) <;> simp_all

/-- A result other than Changed leaves the store untouched (Mode::Restore arm). -/
theorem inputRestore_box {i : Nat} {k : Key} {idx : Nat} {box : TissueBox}
    {r : InputResult} {i2 : Nat} {b2 : TissueBox}
    (h : inputRestore i k idx box = some (r, i2, b2)) (hr : r ≠ .changed) : b2 = box := by
  cases k <;> simp_all [inputRestore, isUpKey, isDownKey] <;>
    (repeat' split at h) <;> simp_all

/-- The input function only changes the store when it answers Changed: any
Mode, Copy or Error result leaves the Record Store exactly as it was. -/
theorem input_box_eq {m : Mode} {k : Key} {idx : Nat} {box : TissueBox} {env : ExtEnv}
    {r : InputResult} {i2 : Nat} {b2 : TissueBox}
    (h : input m k idx box env = some (r, i2, b2)) (hr : r ≠ .changed) : b2 = box := by
  cases m with
  | normal =>
    simp only [input, Option.some.injEq] at h
    exact inputNormal_box h hr
  | help =>
    simp only [input, Option.some.injEq] at h
    exact inputHelp_box h hr
  | add buf =>
    simp only [input, Option.some.injEq] at h
    exact inputAdd_box h hr
  | describe buf =>
    simp only [input] at h
    exact inputDescribe_box h hr
  | tag buf =>
    simp only [input] at h
    exact inputTag_box h hr
  | edit buf =>
    simp only [input] at h
    exact inputEdit_box h hr
  | copy =>
    simp only [input] at h
    exact inputCopy_box h hr
  | publish =>
    simp only [input] at h
    exact inputPublish_box h hr
  | commit =>
    simp only [input] at h
    exact inputCommit_box h hr
  | remove =>
    simp only [input] at h
    exact inputRemove_box h hr
  | removeDescription i =>
    simp only [input] at h
    exact inputRemoveDescription_box h hr
  | removeTag buf =>
    simp only [input] at h
    exact inputRemoveTag_box h hr
  | restore i =>
    simp only [input] at h
    exact inputRestore_box h hr



theorem inputNormal_ok (k : Key) (idx : Nat) (box : TissueBox) :
    modeOkAfter box (inputNormal k idx box) := by
  cases k with
  | char c =>
    unfold inputNormal
    by_cases h1 : isUpKey (Key.char c)
    · rw [if_pos h1]
      simp [modeOkAfter, modePre]
    rw [if_neg h1]
    by_cases h2 : isDownKey (Key.char c)
    · rw [if_pos h2]
      simp [modeOkAfter, modePre]
    rw [if_neg h2]
    simp only []
    by_cases h3 : c = 'H'
    · rw [if_pos h3]
      simp [modeOkAfter, modePre]
    rw [if_neg h3]
    by_cases h4 : c = 'a'
    · rw [if_pos h4]
      simp [modeOkAfter, modePre]
    rw [if_neg h4]
    by_cases h5 : c = 'R'
    · rw [if_pos h5]
      by_cases h5b : box.recycleBin.isEmpty = true
      · rw [if_pos h5b]
        simp [modeOkAfter, modePre]
      · rw [if_neg h5b]
        simp_all [modeOkAfter, modePre, List.isEmpty_iff, List.length_pos]
    rw [if_neg h5]
    by_cases h6 : c = 'd' ∧ box.tissues.isEmpty = false
    · rw [if_pos h6]
      simp_all [modeOkAfter, modePre, min_lt_iff, List.isEmpty_iff, List.length_pos]
    rw [if_neg h6]
    by_cases h7 : c = 't' ∧ box.tissues.isEmpty = false
    · rw [if_pos h7]
      simp_all [modeOkAfter, modePre, min_lt_iff, List.isEmpty_iff, List.length_pos]
    rw [if_neg h7]
    by_cases h8 : c = 'e' ∧ box.tissues.isEmpty = false
    · rw [if_pos h8]
      simp_all [modeOkAfter, modePre, min_lt_iff, List.isEmpty_iff, List.length_pos]
    rw [if_neg h8]
    by_cases h9 : c = 'c' ∧ box.tissues.isEmpty = false
    · rw [if_pos h9]
      simp_all [modeOkAfter, modePre, min_lt_iff, List.isEmpty_iff, List.length_pos]
    rw [if_neg h9]
    by_cases h10 : c = 'C' ∧ box.tissues.isEmpty = false
    · rw [if_pos h10]
      simp_all [modeOkAfter, modePre, min_lt_iff, List.isEmpty_iff, List.length_pos]
    rw [if_neg h10]
    by_cases h11 : c = 'P' ∧ box.tissues.isEmpty = false
    · rw [if_pos h11]
      simp_all [modeOkAfter, modePre, min_lt_iff, List.isEmpty_iff, List.length_pos]
    rw [if_neg h11]
    by_cases h12 : c = 'r' ∧ box.tissues.isEmpty = false
    · rw [if_pos h12]
      simp_all [modeOkAfter, modePre, min_lt_iff, List.isEmpty_iff, List.length_pos]
    rw [if_neg h12]
    by_cases h13 : c = '*' ∧ box.tissues.isEmpty = false
    · rw [if_pos h13]
      rcases hst : box.starred with _ | st
      · simp [modeOkAfter]
      · repeat' split
        all_goals simp [modeOkAfter]
    rw [if_neg h13]
    simp [modeOkAfter, modePre]
  | up =>
    intro m2 hm2
    simp only [inputNormal, isUpKey, isDownKey] at hm2
    repeat' split at hm2
    all_goals simp at hm2
    all_goals subst hm2
    all_goals simp [modePre]
  | left =>
    intro m2 hm2
    simp only [inputNormal, isUpKey, isDownKey] at hm2
    repeat' split at hm2
    all_goals simp at hm2
    all_goals subst hm2
    all_goals simp [modePre]
  | down =>
    intro m2 hm2
    simp only [inputNormal, isUpKey, isDownKey] at hm2
    repeat' split at hm2
    all_goals simp at hm2
    all_goals subst hm2
    all_goals simp [modePre]
  | right =>
    intro m2 hm2
    simp only [inputNormal, isUpKey, isDownKey] at hm2
    repeat' split at hm2
    all_goals simp at hm2
    all_goals subst hm2
    all_goals simp [modePre]
  | backspace =>
    intro m2 hm2
    simp only [inputNormal, isUpKey, isDownKey] at hm2
    repeat' split at hm2
    all_goals simp at hm2
    all_goals subst hm2
    all_goals simp [modePre]
  | enter =>
    intro m2 hm2
    simp only [inputNormal, isUpKey, isDownKey] at hm2
    repeat' split at hm2
    all_goals simp at hm2
    all_goals subst hm2
    all_goals simp [modePre]
  | esc =>
    intro m2 hm2
    simp only [inputNormal, isUpKey, isDownKey] at hm2
    repeat' split at hm2
    all_goals simp at hm2
    all_goals subst hm2
    all_goals simp [modePre]
  | other =>
    intro m2 hm2
    simp only [inputNormal, isUpKey, isDownKey] at hm2
    repeat' split at hm2
    all_goals simp at hm2
    all_goals subst hm2
    all_goals simp [modePre]

theorem inputHelp_ok (k : Key) (idx : Nat) (box : TissueBox) :
    modeOkAfter box (inputHelp k idx box) := by
  cases k <;> simp [inputHelp, modeOkAfter, modePre]

theorem inputAdd_ok (buf : String) (k : Key) (idx : Nat) (box : TissueBox) :
    modeOkAfter box (inputAdd buf k idx box) := by
  cases k <;> simp [inputAdd, gatherLine, modeOkAfter, modePre]

theorem inputDescribe_ok (buf : String) (k : Key) (idx : Nat) (box : TissueBox)
    (hm : idx < box.tissues.length) :
    ∃ out, inputDescribe buf k idx box = some out ∧ modeOkAfter box out := by
  cases k <;>
    simp [inputDescribe, gatherLine, List.getElem?_eq_getElem hm, modeOkAfter, modePre,
      min_lt_iff] <;> omega

theorem inputTag_ok (buf : String) (k : Key) (idx : Nat) (box : TissueBox)
    (hm : idx < box.tissues.length) :
    ∃ out, inputTag buf k idx box = some out ∧ modeOkAfter box out := by
  cases k <;>
    simp [inputTag, gatherLine, List.getElem?_eq_getElem hm, modeOkAfter, modePre,
      min_lt_iff] <;> omega

theorem inputEdit_ok (buf : String) (k : Key) (idx : Nat) (box : TissueBox)
    (hm : idx < box.tissues.length) :
    ∃ out, inputEdit buf k idx box = some out ∧ modeOkAfter box out := by
  cases k <;>
    simp [inputEdit, gatherLine, List.getElem?_eq_getElem hm, modeOkAfter, modePre,
      min_lt_iff] <;> omega

theorem inputRemoveTag_ok (buf : String) (k : Key) (idx : Nat) (box : TissueBox)
    (hm : idx < box.tissues.length) :
    ∃ out, inputRemoveTag buf k idx box = some out ∧ modeOkAfter box out := by
  cases k <;>
    simp [inputRemoveTag, gatherLine, List.getElem?_eq_getElem hm, modeOkAfter, modePre,
      min_lt_iff] <;> omega

theorem inputCopy_ok (k : Key) (idx : Nat) (box : TissueBox)
    (hm : idx < box.tissues.length) :
    ∃ out, inputCopy k idx box = some out ∧ modeOkAfter box out := by
  cases k
  case char c =>
    unfold inputCopy
    repeat' split
    all_goals simp [List.getElem?_eq_getElem hm, modeOkAfter, modePre, min_lt_iff]
    all_goals omega
  all_goals
    (unfold inputCopy
     simp [modeOkAfter, modePre, min_lt_iff]
     omega)

theorem inputPublish_ok (k : Key) (idx : Nat) (box : TissueBox) (env : ExtEnv)
    (hm : idx < box.tissues.length) :
    ∃ out, inputPublish k idx box env = some out ∧ modeOkAfter box out := by
  cases k
  case char c =>
    unfold inputPublish
    repeat' split
    all_goals simp_all [List.getElem?_eq_getElem hm, modeOkAfter, modePre, min_lt_iff]
  all_goals
    (unfold inputPublish
     simp [modeOkAfter, modePre, min_lt_iff]
     omega)

theorem inputCommit_ok (k : Key) (idx : Nat) (box : TissueBox) (env : ExtEnv)
    (hm : idx < box.tissues.length) :
    ∃ out, inputCommit k idx box env = some out ∧ modeOkAfter box out := by
  cases k
  case char c =>
    unfold inputCommit
    repeat' split
    all_goals simp_all [List.getElem?_eq_getElem hm, modeOkAfter, modePre, min_lt_iff]
  all_goals
    (unfold inputCommit
     simp [modeOkAfter, modePre, min_lt_iff]
     omega)

theorem inputRestore_ok (i : Nat) (k : Key) (idx : Nat) (box : TissueBox)
    (hm : i < box.recycleBin.length) :
    ∃ out, inputRestore i k idx box = some out ∧ modeOkAfter box out := by
  unfold inputRestore
  repeat' split
  all_goals simp [modeOkAfter, modePre, min_lt_iff]
  all_goals omega

theorem inputRemove_ok (k : Key) (idx : Nat) (box : TissueBox)
    (hm : idx < box.tissues.length) :
    ∃ out, inputRemove k idx box = some out ∧ modeOkAfter box out := by
  have hmin : min idx (box.tissues.length - 1) = idx := Nat.min_eq_left (Nat.le_sub_one_of_lt hm)
  cases k
  case char c =>
    unfold inputRemove
    repeat' split
    all_goals simp_all [List.getElem?_eq_getElem hm, modeOkAfter, modePre, min_lt_iff, hmin,
      List.isEmpty_iff, List.length_pos]
    all_goals try omega
  all_goals
    (unfold inputRemove
     simp [modeOkAfter, modePre, min_lt_iff]
     omega)

theorem inputRemoveDescription_ok (i : Nat) (k : Key) (idx : Nat) (box : TissueBox)
    (t : Tissue) (ht : box.tissues[idx]? = some t) (hi : i < t.description.length) :
    ∃ out, inputRemoveDescription i k idx box = some out ∧ modeOkAfter box out := by
  have hlen : idx < box.tissues.length := (List.getElem?_eq_some.mp ht).1
  have hmin : min idx (box.tissues.length - 1) = idx := Nat.min_eq_left (Nat.le_sub_one_of_lt hlen)
  unfold inputRemoveDescription
  rw [ht]
  repeat' split
  all_goals simp_all [modeOkAfter, modePre, min_lt_iff, hmin]
  all_goals omega


theorem indexOk_clampState (s : SessState) : indexOk (clampState s) := by
  unfold indexOk clampState
  by_cases h : s.box.tissues = []
  · left
    refine ⟨h, ?_⟩
    simp [h]
  · right
    have hp : 0 < s.box.tissues.length := List.length_pos.mpr h
    simp only [min_lt_iff]
    right
    omega

theorem input_ok (m : Mode) (k : Key) (idx : Nat) (box : TissueBox) (env : ExtEnv)
    (hm : modePre m idx box) :
    ∃ out, input m k idx box env = some out ∧ modeOkAfter box out := by
  cases m with
  | normal => exact ⟨_, rfl, inputNormal_ok k idx box⟩
  | help => exact ⟨_, rfl, inputHelp_ok k idx box⟩
  | add buf => exact ⟨_, rfl, inputAdd_ok buf k idx box⟩
  | describe buf => exact inputDescribe_ok buf k idx box hm
  | tag buf => exact inputTag_ok buf k idx box hm
  | edit buf => exact inputEdit_ok buf k idx box hm
  | copy => exact inputCopy_ok k idx box hm
  | publish => exact inputPublish_ok k idx box env hm
  | commit => exact inputCommit_ok k idx box env hm
  | remove => exact inputRemove_ok k idx box hm
  | removeDescription i =>
    obtain ⟨t, ht, hi⟩ := hm
    exact inputRemoveDescription_ok i k idx box t ht hi
  | removeTag buf => exact inputRemoveTag_ok buf k idx box hm
  | restore i => exact inputRestore_ok i k idx box hm

theorem tuiStep_inv (s : SessState) (k : Key) (env : ExtEnv) (h : Inv s) :
    ∃ r, tuiStep s k env = some r ∧ ∀ s2 sv, r = .cont s2 sv → Inv s2 := by
  unfold tuiStep
  by_cases hq : escMode s k = Mode.normal ∧ k = Key.char 'q'
  · rw [if_pos hq]
    exact ⟨.exit, rfl, fun s2 sv h2 => by cases h2⟩
  · rw [if_neg hq]
    have hm : modePre (escMode s k) s.index s.box := by
      unfold escMode
      by_cases hk : k = Key.esc
      · rw [if_pos hk]
        exact trivial
      · rw [if_neg hk]
        exact h.2
    obtain ⟨out, hout, hok⟩ := input_ok (escMode s k) k s.index s.box env hm
    obtain ⟨r0, i2, b2⟩ := out
    rw [hout]
    cases r0 with
    | mode m2 =>
      have hb : b2 = s.box := input_box_eq hout (by simp)
      refine ⟨_, rfl, ?_⟩
      intro s2 sv h2
      simp only [Option.map_some'] at h2
      cases h2
      refine ⟨indexOk_clampState _, ?_⟩
      have := hok m2 rfl
      subst hb
      simpa [clampState] using this
    | copy txt =>
      refine ⟨_, rfl, ?_⟩
      intro s2 sv h2
      simp only [Option.map_some'] at h2
      cases h2
      exact ⟨indexOk_clampState _, trivial⟩
    | error e =>
      refine ⟨_, rfl, ?_⟩
      intro s2 sv h2
      simp only [Option.map_some'] at h2
      cases h2
      exact ⟨indexOk_clampState _, trivial⟩
    | changed =>
      refine ⟨_, rfl, ?_⟩
      intro s2 sv h2
      simp only [Option.map_some'] at h2
      cases h2
      exact ⟨indexOk_clampState _, trivial⟩

theorem stepFold_inv (s : SessState) (ke : Key × ExtEnv) (h : Inv s) :
    Inv (stepFold s ke) := by
  obtain ⟨r, hr, hpost⟩ := tuiStep_inv s ke.1 ke.2 h
  unfold stepFold
  rw [hr]
  cases r with
  | exit => exact h
  | cont s2 sv => exact hpost s2 sv rfl

theorem initState_inv (b : TissueBox) : Inv (initState b) :=
  ⟨indexOk_clampState _, trivial⟩

theorem runKeys_inv (inputs : List (Key × ExtEnv)) (s : SessState) (h : Inv s) :
    Inv (runKeys s inputs) := by
  induction inputs generalizing s with
  | nil => exact h
  | cons ke rest ih => exact ih _ (stepFold_inv s ke h)


/-- Claim C1: for every index valid in the live item sequence, remove moves
the full item (description and tags included) from the live sequence to the
tail of the recycle bin, never destroying it; removing an item of title T
leaves an item with title T as the last element of the recycle bin. -/
theorem remove_moves_item_to_recycle_bin (b : TissueBox) (i : Nat) (t : Tissue)
    (h : b.tissues[i]? = some t) :
    (b.remove i).tissues = b.tissues.eraseIdx i ∧
    (b.remove i).recycleBin = b.recycleBin ++ [t] ∧
    (b.remove i).recycleBin.getLast? = some t ∧
    ((b.remove i).recycleBin.getLast?).map Tissue.title = some t.title ∧
    (b.remove i).recycleBin.length = b.recycleBin.length + 1 := by
  unfold TissueBox.remove
  rw [h]
  refine ⟨rfl, rfl, List.getLast?_concat _, ?_, by simp⟩
  rw [List.getLast?_concat]
  rfl

theorem remove_moves_item_to_recycle_bin_witness :
    (c1Box.remove 1).recycleBin.getLast? = some tissueBar :=
  (remove_moves_item_to_recycle_bin c1Box 1 tissueBar (by decide)).2.2.1

/-- Claim C2: for every sequence of key presses reachable from the initial
Idle state, after each step the highlighted index and every selector index
lie within bounds of the sequence they address (live items for the
highlighted index and the description-removal walk, the recycle bin for the
restore walk), and on an empty sequence the index is 0 with no valid
target. -/
theorem reachable_state_indices_in_bounds (b : TissueBox) (inputs : List (Key × ExtEnv)) :
    Inv (runKeys (initState b) inputs) :=
  runKeys_inv inputs (initState b) (initState_inv b)

/-- Claim C9: on a first run inside a git repository, the bootstrap prompt
selects the exclude-appending branch for the affirmative and for the
negative key alike: pressing y and pressing n both answer true, and every
answer the prompt can produce is true, so answering no does not leave
.git/info/exclude untouched. -/
theorem bootstrap_prompt_appends_exclude_on_yes_and_no :
    gitPromptResponse (.char 'y') = some true ∧
    gitPromptResponse (.char 'n') = some true ∧
    bootstrapAppendsExclude false true [.char 'y'] = some true ∧
    bootstrapAppendsExclude false true [.char 'n'] = some true ∧
    (∀ keys b, bootstrapAppendsExclude false true keys = some b → b = true) := by
  have haux : ∀ k b, gitPromptResponse k = some b → b = true := by
    intro k b h
    cases k
    case char c =>
      unfold gitPromptResponse at h
      repeat' split at h
      all_goals simp_all
    all_goals simp [gitPromptResponse] at h
  refine ⟨by decide, by decide, by decide, by decide, ?_⟩
  intro keys b h
  unfold bootstrapAppendsExclude at h
  simp only [Bool.false_eq_true, if_false, if_true] at h
  obtain ⟨k, hmem, hk⟩ := List.exists_of_findSome?_eq_some h
  exact haux k b hk

theorem bootstrap_prompt_appends_exclude_on_yes_and_no_witness :
    bootstrapAppendsExclude false true [Key.char 'n'] = some true ∧ true = true :=
  ⟨by decide,
    bootstrap_prompt_appends_exclude_on_yes_and_no.2.2.2.2 [Key.char 'n'] true (by decide)⟩

/-- Claim C10: for every state reachable from session start, handling any
further key press never hits a panic branch: every live-sequence indexing in
the input function is in bounds and the length-minus-one subtractions in the
RemoveDescription and Restore walkers never underflow, so the step function
is total on reachable states. -/
theorem reachable_input_never_panics (b : TissueBox) (inputs : List (Key × ExtEnv))
    (k : Key) (env : ExtEnv) :
    (tuiStep (runKeys (initState b) inputs) k env).isSome = true := by
  obtain ⟨r, hr, _⟩ := tuiStep_inv _ k env (runKeys_inv inputs _ (initState_inv b))
  simp [hr]


/-- Claim C3: in every iteration of the session loop, a mutation of the
Record Store while handling one input event is followed by a synchronous
save before the next render and the next input event (the step carries the
saved flag and installs the save outcome before completing), and a failing
save becomes the next displayed error while the session continues. -/
theorem mutation_persisted_before_next_input (s : SessState) (k : Key) (env : ExtEnv)
    (s2 : SessState) (sv : Bool)
    (h : tuiStep s k env = some (.cont s2 sv)) :
    (s2.box ≠ s.box → sv = true) ∧
    (sv = true → s2.lastError = env.saveResult) := by
  unfold tuiStep at h
  by_cases hq : escMode s k = Mode.normal ∧ k = Key.char 'q'
  · rw [if_pos hq] at h
    simp at h
  · rw [if_neg hq] at h
    cases hin : input (escMode s k) k s.index s.box env with
    | none =>
      rw [hin] at h
      simp at h
    | some out =>
      obtain ⟨r0, i2, b2⟩ := out
      rw [hin] at h
      simp only [Option.map_some'] at h
      cases r0 with
      | mode m2 =>
        have hb : b2 = s.box := input_box_eq hin (by simp)
        injection h with h1
        injection h1 with h2 h3
        subst h2
        subst h3
        refine ⟨?_, ?_⟩
        · intro hbox
          exact absurd (by simp [clampState, hb]) hbox
        · intro hsv
          cases hsv
      | copy txt =>
        have hb : b2 = s.box := input_box_eq hin (by simp)
        injection h with h1
        injection h1 with h2 h3
        subst h2
        subst h3
        refine ⟨?_, ?_⟩
        · intro hbox
          exact absurd (by simp [clampState, hb]) hbox
        · intro hsv
          cases hsv
      | error e =>
        have hb : b2 = s.box := input_box_eq hin (by simp)
        injection h with h1
        injection h1 with h2 h3
        subst h2
        subst h3
        refine ⟨?_, ?_⟩
        · intro hbox
          exact absurd (by simp [clampState, hb]) hbox
        · intro hsv
          cases hsv
      | changed =>
        injection h with h1
        injection h1 with h2 h3
        subst h2
        subst h3
        exact ⟨fun _ => rfl, fun _ => by simp [clampState]⟩

theorem mutation_persisted_before_next_input_witness :
    c3S2.lastError = c3Env.saveResult :=
  (mutation_persisted_before_next_input c3S .enter c3Env c3S2 true (by decide)).2 rfl

/-- Claim C4 (amended form not needed, direct): from every non-Idle mode and
every store state, Escape returns the session to Idle and leaves the Record
Store unchanged: same store, same last error, no save, only the highlighted
index is re-clamped by the following loop head. -/
theorem esc_cancels_to_idle_without_side_effects (s : SessState) (env : ExtEnv)
    (h : s.mode ≠ Mode.normal) :
    tuiStep s .esc env =
      some (.cont { s with mode := Mode.normal, index := min s.index (s.box.tissues.length - 1) } false) := by
  have hin : inputNormal Key.esc s.index s.box = (.mode .normal, s.index, s.box) := by
    unfold inputNormal
    rw [if_neg (by simp [isUpKey]), if_neg (by simp [isDownKey])]
  have hesc : escMode s Key.esc = Mode.normal := by
    simp [escMode]
  unfold tuiStep
  rw [if_neg (by simp [hesc])]
  rw [hesc]
  simp only [input, hin, Option.map_some']
  rfl

theorem esc_cancels_to_idle_without_side_effects_witness :
    tuiStep c4S .esc envOk =
      some (.cont { c4S with mode := Mode.normal, index := min c4S.index (c4S.box.tissues.length - 1) } false) :=
  esc_cancels_to_idle_without_side_effects c4S envOk (by decide)


/-- Claim C5 counterexample: the star key's jump-to-starred-item branch is a
pure navigation (the store is unchanged, only the highlighted index moves),
yet it produces a Changed result, so the session saves: the claim that
navigation-only transitions never produce a Persist or a save is false at
this input. -/
theorem star_jump_persists_counterexample :
    tuiStep c5S (.char '*') envOk = some (.cont c5S2 true) ∧
    c5S2.box = c5S.box ∧
    c5S2.index ≠ c5S.index := by decide

/-- Claim C5, amended: every transition that mutates the Record Store
produces Changed (a save), and every Mode-only result leaves the store
untouched with no save; the exception the code makes is the star key, whose
jump-to-starred-item branch changes only the highlighted index and still
produces Changed. -/
theorem persist_exactly_on_mutation_except_star_jump :
    (∀ m k idx box env r i2 b2,
      input m k idx box env = some (r, i2, b2) → b2 ≠ box → r = .changed) ∧
    (∀ m k idx box env m2 i2 b2,
      input m k idx box env = some (.mode m2, i2, b2) → b2 = box) ∧
    (∀ idx box env st, box.starred = some st → st ≠ idx → box.tissues ≠ [] →
      input .normal (.char '*') idx box env = some (.changed, st, box)) := by
  refine ⟨?_, ?_, ?_⟩
  · intro m k idx box env r i2 b2 h hne
    by_contra hr
    exact hne (input_box_eq h hr)
  · intro m k idx box env m2 i2 b2 h
    exact input_box_eq h (by simp)
  · intro idx box env st hst hne hempty
    have hie : box.tissues.isEmpty = false := by
      simp [List.isEmpty_iff, hempty]
    simp only [input, inputNormal, Option.some.injEq]
    rw [if_neg (by simp [isUpKey]), if_neg (by simp [isDownKey])]
    rw [if_neg (by decide), if_neg (by decide), if_neg (by decide),
      if_neg (by simp), if_neg (by simp), if_neg (by simp), if_neg (by simp),
      if_neg (by simp), if_neg (by simp), if_neg (by simp),
      if_pos (by simp [hie])]
    rw [hst]
    simp [hne]

theorem persist_exactly_on_mutation_except_star_jump_witness :
    input .normal (.char '*') 1 c5Box envOk = some (.changed, 0, c5Box) :=
  persist_exactly_on_mutation_except_star_jump.2.2 1 c5Box envOk 0 (by decide) (by decide)
    (by decide)


/-- Claim C6 counterexample: after a failing publish the session is already
back in the Normal (Idle) mode, not in an error-display Mode, and the
failure text is not dismissed by the next keypress: it is still the
displayed error after pressing another key. -/
theorem publish_failure_error_not_dismissed_counterexample :
    tuiStep c6S (.char 'y') c6Env = some (.cont c6S2 false) ∧
    c6S2.mode = Mode.normal ∧
    c6S2.box = c6S.box ∧
    (stepFold c6S2 (Key.char 'x', c6Env)).lastError = some ("boom") ∧
    (stepFold c6S2 (Key.char 'x', c6Env)).mode = Mode.normal := by decide

/-- Claim C6, amended: the affirmative key of a commit/publish gate applies
the external action; on success the acted-upon item is removed (to the
recycle bin) with a save and the session returns to Idle; on failure the
session returns directly to Idle with the failure text installed as the last
displayed error (persisting until a later outcome overwrites it, instead of
an error-display Mode dismissed by the next keypress) and the Record Store
is not mutated and not saved. -/
theorem gate_affirmative_outcomes (box : TissueBox) (idx : Nat) (le : Option String)
    (env : ExtEnv) (t : Tissue) (h : box.tissues[idx]? = some t) :
    (∀ msg, env.publishResult = some msg →
      tuiStep { index := idx, mode := .publish, box := box, lastError := le } (.char 'y') env =
        some (.cont { index := min idx (box.tissues.length - 1), mode := .normal, box := box, lastError := some msg } false)) ∧
    (env.publishResult = none →
      tuiStep { index := idx, mode := .publish, box := box, lastError := le } (.char 'y') env =
        some (.cont { index := min idx ((box.remove idx).tissues.length - 1), mode := .normal, box := box.remove idx, lastError := env.saveResult } true) ∧
      (box.remove idx).recycleBin.getLast? = some t) ∧
    (∀ msg, env.commitResult = some msg →
      tuiStep { index := idx, mode := .commit, box := box, lastError := le } (.char 'y') env =
        some (.cont { index := min idx (box.tissues.length - 1), mode := .normal, box := box, lastError := some msg } false)) ∧
    (env.commitResult = none →
      tuiStep { index := idx, mode := .commit, box := box, lastError := le } (.char 'y') env =
        some (.cont { index := min idx ((box.remove idx).tissues.length - 1), mode := .normal, box := box.remove idx, lastError := env.saveResult } true)) := by
  refine ⟨?_, ?_, ?_, ?_⟩
  · intro msg hmsg
    simp [tuiStep, escMode, input, inputPublish, h, hmsg, clampState]
  · intro hok
    constructor
    · simp [tuiStep, escMode, input, inputPublish, h, hok, clampState]
    · unfold TissueBox.remove
      rw [h]
      exact List.getLast?_concat _
  · intro msg hmsg
    simp [tuiStep, escMode, input, inputCommit, h, hmsg, clampState]
  · intro hok
    simp [tuiStep, escMode, input, inputCommit, h, hok, clampState]

theorem gate_affirmative_outcomes_witness :
    tuiStep { index := 0, mode := .publish, box := c6WBox, lastError := none } (.char 'y') c6WEnv =
      some (.cont { index := min 0 (c6WBox.tissues.length - 1), mode := .normal, box := c6WBox, lastError := some ("offline") } false) :=
  (gate_affirmative_outcomes c6WBox 0 none c6WEnv tissueFoo (by decide)).1 ("offline") (by decide)


/-- Claim C7 counterexample: with no clipboard helper configured, a copy
request installs the fixed error text of the code, which is the string
clipboard is not available, not the string clipboard unavailable named by
the claim; the store is unchanged and the session returns to Idle. -/
theorem clipboard_reason_counterexample :
    tuiStep c7S (.char 't') envOk = some (.cont c7S2 false) ∧
    c7S2.lastError = some ("clipboard is not available") ∧
    c7S2.lastError ≠ some ("clipboard unavailable") ∧
    c7S2.box = c7S.box ∧
    c7S2.mode = Mode.normal := by decide

/-- Claim C7, amended: when a clipboard copy is requested and no clipboard
helper is available, the outcome is a failure with the fixed reason
clipboard is not available and the Record Store is unchanged with no save;
for every copy request, successful or not, the session returns to the Idle
mode afterwards, with the spawn outcome as the displayed error when a helper
is configured. -/
theorem copy_requests_return_to_idle (s : SessState) (k : Key) (env : ExtEnv)
    (text : String) (i2 : Nat) (b2 : TissueBox)
    (hm : s.mode = Mode.copy)
    (h : input Mode.copy k s.index s.box env = some (.copy text, i2, b2)) :
    ∃ s2, tuiStep s k env = some (.cont s2 false) ∧
      s2.mode = Mode.normal ∧
      s2.box = s.box ∧
      (env.clipboardDaemon = false → s2.lastError = some ("clipboard is not available")) ∧
      (env.clipboardDaemon = true → s2.lastError = env.spawnResult) := by
  have hb : b2 = s.box := input_box_eq h (by simp)
  have hkc : ∃ c, k = Key.char c := by
    cases k
    case char c => exact ⟨c, rfl⟩
    all_goals simp [input, inputCopy] at h
  obtain ⟨c, rfl⟩ := hkc
  have hesc : escMode s (Key.char c) = Mode.copy := by
    simp [escMode, hm]
  refine ⟨clampState { index := i2, mode := .normal, box := b2, lastError := if env.clipboardDaemon then env.spawnResult else some ("clipboard is not available") }, ?_, ?_, ?_, ?_, ?_⟩
  · unfold tuiStep
    rw [if_neg (by simp [hesc]), hesc, h]
    simp only [Option.map_some']
  · rfl
  · simp [clampState, hb]
  · intro hd
    simp [clampState, hd]
  · intro hd
    simp [clampState, hd]

theorem copy_requests_return_to_idle_witness :
    ∃ s2, tuiStep c7WS (.char 't') envOk = some (.cont s2 false) ∧
      s2.mode = Mode.normal ∧
      s2.box = c7WS.box ∧
      (envOk.clipboardDaemon = false → s2.lastError = some ("clipboard is not available")) ∧
      (envOk.clipboardDaemon = true → s2.lastError = envOk.spawnResult) :=
  copy_requests_return_to_idle c7WS (.char 't') envOk ("Foo") 0 c7Box (by decide) (by decide)


/-- Claim C8: in every text-capture mode a backspace removes the last
character of the buffer, a character key appends it, any other non-Enter key
leaves the buffer unchanged, and Enter commits the buffer into the target
mutation returning to Idle; in particular, from Idle pressing d, typing
Depends on X and pressing Enter appends exactly that entry at the tail of
the highlighted item's description with a Persist (save) back in Idle. -/
theorem text_capture_gathers_and_commits :
    (∀ line, gatherLine line .backspace = (false, line.dropRight 1)) ∧
    (∀ line c, gatherLine line (.char c) = (false, line.push c)) ∧
    (∀ line k, k ≠ .backspace → k ≠ .enter → (∀ c, k ≠ .char c) →
      gatherLine line k = (false, line)) ∧
    (∀ line, gatherLine line .enter = (true, line)) ∧
    (∀ buf k idx box env, k ≠ Key.enter →
      input (.describe buf) k idx box env =
        some (.mode (.describe (gatherLine buf k).2), idx, box)) ∧
    (∀ buf idx box env t, box.tissues[idx]? = some t →
      input (.describe buf) .enter idx box env =
        some (.changed, idx, { box with tissues := box.tissues.set idx (t.describe buf) })) ∧
    (tuiStep c8Typed .enter envOk = some (.cont c8Final true) ∧
      (c8Final.box.tissues.getD 0 default).description = ["Depends on X"] ∧
      c8Final.mode = Mode.normal) := by
  refine ⟨?_, ?_, ?_, ?_, ?_, ?_, ?_⟩
  · intro line
    rfl
  · intro line c
    rfl
  · intro line k hb he hc
    cases k
    case char c => exact absurd rfl (hc c)
    all_goals first | rfl | (exact absurd rfl hb) | (exact absurd rfl he)
  · intro line
    rfl
  · intro buf k idx box env he
    cases k
    case enter => exact absurd rfl he
    all_goals rfl
  · intro buf idx box env t ht
    simp [input, inputDescribe, gatherLine, ht]
  · exact ⟨by decide, by decide, by decide⟩

theorem text_capture_gathers_and_commits_witness :
    input (.describe ("hi")) .enter 0 c8WBox envOk =
      some (.changed, 0, { c8WBox with tissues := c8WBox.tissues.set 0 (c8WTissue.describe ("hi")) }) :=
  text_capture_gathers_and_commits.2.2.2.2.2.1 ("hi") 0 c8WBox envOk c8WTissue (by decide)

end Tissuebox
